import Mathlib

/-!
Shallow embedding of the task-list persistence engine of this repository.

Modules embedded:
- `src/stores/todoStore.ts` — the Pinia Entity Collection Store (state,
  CRUD/batch operations, derived counts, snapshot).
- `src/composables/useTodoStorage.ts` — the composable holding
  `completionRate`, `exportData`, `importData`.
- `src/utils/storage.ts` — `saveSettings` (merge semantics).
- `src/composables/useLocalStorage.ts` — `useLocalStorageObject.update`
  (spread merge), used by `importData`.

Modelling conventions:
- JavaScript `Date` values are `JDate`: either a valid timestamp
  (milliseconds, `Int`) or the Invalid Date produced by failed parsing.
- `JSON.stringify`/`JSON.parse` are modelled at the level of JSON trees
  (`Json`); a serialized `Date` is abstracted as its numeric timestamp
  (an injective encoding reparsed exactly by the `Date` constructor,
  standing in for the ISO-8601 text the runtime emits).
- String `.trim()` is modelled over the character list (`jsTrim`);
  `.length` counts characters.
- `generateId()` / `new Date()` results are explicit parameters of the
  operations (`newId`, `now`).
- The store's reactive refs become a plain state record; each action is a
  pure function from state (plus inputs) to result and next state.
-/

namespace TodoApp

/-- JavaScript whitespace recognised by `String.prototype.trim`
(space, tab, line feed, carriage return, vertical tab, form feed). -/
def isJsWhitespace (c : Char) : Bool :=
  c = ' ' || c = '\t' || c = '\n' || c = '\r' || c = '\x0b' || c = '\x0c'

/-- Drop trailing whitespace from a character list. -/
def rtrimChars : List Char → List Char
  | [] => []
  | a :: t =>
    match rtrimChars t with
    | [] => if isJsWhitespace a then [] else [a]
    | b :: m => a :: b :: m

/-- `String.prototype.trim` on the character list: drop leading, then
trailing, whitespace. -/
def trimChars (l : List Char) : List Char :=
  rtrimChars (l.dropWhile isJsWhitespace)

/-- `title.trim()` as used throughout the store. -/
def jsTrim (s : String) : String :=
  String.mk (trimChars s.data)

/-- A JavaScript `Date`: a valid millisecond timestamp or Invalid Date. -/
inductive JDate where
  | valid (ms : Int)
  | invalid
deriving DecidableEq, Repr

/-- The `Todo` entity of `src/types/todo` —
`{id, title, completed, createdAt, updatedAt}`. -/
structure Todo where
  id : String
  title : String
  completed : Bool
  createdAt : JDate
  updatedAt : JDate
deriving DecidableEq, Repr

/-- The `FilterType` union `'all' | 'active' | 'completed'`. -/
inductive FilterType where
  | all
  | active
  | completed
deriving DecidableEq, Repr

/-- The reactive state of the Pinia store in `todoStore.ts`:
`todos`, `filter`, `loading`, `error` (the `initialized` flag and the
persistence watchers are not needed by the claims below). -/
structure StoreState where
  todos : List Todo
  filter : FilterType
  loading : Bool
  error : Option String
deriving DecidableEq, Repr

/-- The store's initial state: empty list, filter `'all'`, not loading,
no error. -/
def initialState : StoreState :=
  { todos := [], filter := .all, loading := false, error := none }

/-- Error message of `addTodo`/`updateTodo` for an empty title. -/
def emptyTitleMsg : String := "待办事项标题不能为空"

/-- Error message of `addTodo`/`updateTodo` for a too-long title. -/
def tooLongMsg : String := "待办事项标题不能超过200个字符"

/-- Error message of the by-id operations for an absent id. -/
def notFoundMsg (id : String) : String :=
  "未找到ID为 " ++ id ++ " 的待办事项"

/-- Error message of `addMultipleTodos` when no valid title remains. -/
def noValidTitlesMsg : String := "没有有效的待办事项标题"

/-- `addTodo(title)` from `todoStore.ts`. The source's first guard
`!title || title.trim().length === 0` is equivalent to the trimmed length
being zero (an empty string trims to itself). On a validation failure the
action sets the blunt error and throws; success clears the error, pushes
the new entity and returns it. -/
def addTodo (s : StoreState) (title : String) (newId : String) (now : Int) :
    Except String Todo × StoreState :=
  if (jsTrim title).length = 0 then
    (Except.error emptyTitleMsg, { s with error := some emptyTitleMsg })
  else if (jsTrim title).length > 200 then
    (Except.error tooLongMsg, { s with error := some tooLongMsg })
  else
    let newTodo : Todo :=
      { id := newId, title := jsTrim title, completed := false
        createdAt := JDate.valid now, updatedAt := JDate.valid now }
    (Except.ok newTodo,
      { s with error := none, todos := s.todos ++ [newTodo] })

/-- Replace the first element satisfying `p` by its image under `f`
(the effect of `find` followed by in-place mutation of the found todo). -/
def setFirstBy (p : Todo → Bool) (f : Todo → Todo) : List Todo → List Todo
  | [] => []
  | a :: t => if p a then f a :: t else a :: setFirstBy p f t

/-- `toggleTodo(id)` from `todoStore.ts`: find by id; if absent, set the
blunt error and return `false`; else clear the error, negate `completed`,
bump `updatedAt`, return `true`. -/
def toggleTodo (s : StoreState) (id : String) (now : Int) :
    Bool × StoreState :=
  match s.todos.find? (fun t => t.id == id) with
  | none => (false, { s with error := some (notFoundMsg id) })
  | some _ =>
    (true,
      { s with error := none
               todos := setFirstBy (fun t => t.id == id)
                 (fun t => { t with completed := !t.completed,
                                    updatedAt := JDate.valid now })
                 s.todos })

/-- `deleteTodo(id)` from `todoStore.ts`: `findIndex` + `splice(i, 1)`. -/
def deleteTodo (s : StoreState) (id : String) : Bool × StoreState :=
  match s.todos.findIdx? (fun t => t.id == id) with
  | none => (false, { s with error := some (notFoundMsg id) })
  | some i =>
    (true, { s with error := none, todos := s.todos.eraseIdx i })

/-- `updateTodo(id, title)` from `todoStore.ts`: validate the title
(same guards as `addTodo` but returning `false` instead of throwing),
then find by id and mutate title/`updatedAt`. -/
def updateTodo (s : StoreState) (id : String) (title : String) (now : Int) :
    Bool × StoreState :=
  if (jsTrim title).length = 0 then
    (false, { s with error := some emptyTitleMsg })
  else if (jsTrim title).length > 200 then
    (false, { s with error := some tooLongMsg })
  else
    match s.todos.find? (fun t => t.id == id) with
    | none => (false, { s with error := some (notFoundMsg id) })
    | some _ =>
      (true,
        { s with error := none
                 todos := setFirstBy (fun t => t.id == id)
                   (fun t => { t with title := jsTrim title,
                                      updatedAt := JDate.valid now })
                   s.todos })

/-- `setFilter(newFilter)` from `todoStore.ts`. -/
def setFilter (s : StoreState) (newFilter : FilterType) : StoreState :=
  { s with filter := newFilter, error := none }

/-- `toggleAllTodos(completed)` from `todoStore.ts`: flip only the
entities not already matching, sharing one `now`. -/
def toggleAllTodos (s : StoreState) (completed : Bool) (now : Int) :
    StoreState :=
  { s with error := none
           todos := s.todos.map (fun t =>
             if t.completed != completed then
               { t with completed := completed, updatedAt := JDate.valid now }
             else t) }

/-- `clearCompleted()` from `todoStore.ts`: count and remove the
completed entities, returning the removed count. -/
def clearCompleted (s : StoreState) : Nat × StoreState :=
  ((s.todos.filter (fun t => t.completed)).length,
    { s with error := none
             todos := s.todos.filter (fun t => !t.completed) })

/-- `setTodos(newTodos)` from `todoStore.ts`: install the list as given,
with no validation. -/
def setTodos (s : StoreState) (newTodos : List Todo) : StoreState :=
  { s with todos := newTodos, error := none }

/-- `clearAllTodos()` from `todoStore.ts`. -/
def clearAllTodos (s : StoreState) : StoreState :=
  { s with todos := [], error := none }

/-- `addMultipleTodos(titles)` from `todoStore.ts`: keep the titles whose
trim is non-empty (the source guard `title && title.trim().length > 0` is
equivalent); if none remain, set the error and return `[]`; else create
one entity per remaining title, sharing one `now`, consuming one fresh id
each. -/
def addMultipleTodos (s : StoreState) (titles : List String)
    (ids : List String) (now : Int) : List Todo × StoreState :=
  let validTitles := titles.filter (fun t => (jsTrim t).length > 0)
  if validTitles.length = 0 then
    ([], { s with error := some noValidTitlesMsg })
  else
    let newTodos := List.zipWith
      (fun title id =>
        ({ id := id, title := jsTrim title, completed := false
           createdAt := JDate.valid now, updatedAt := JDate.valid now } : Todo))
      validTitles ids
    (newTodos, { s with error := none, todos := s.todos ++ newTodos })

/-- Getter `completedCount` from `todoStore.ts`. -/
def completedCount (todos : List Todo) : Nat :=
  (todos.filter (fun t => t.completed)).length

/-- Getter `activeCount` from `todoStore.ts`. -/
def activeCount (todos : List Todo) : Nat :=
  (todos.filter (fun t => !t.completed)).length

/-- Getter `totalCount` from `todoStore.ts`. -/
def totalCount (todos : List Todo) : Nat :=
  todos.length

/-- Getter `filteredTodos` from `todoStore.ts`. -/
def filteredTodos (todos : List Todo) (filter : FilterType) : List Todo :=
  match filter with
  | .active => todos.filter (fun t => !t.completed)
  | .completed => todos.filter (fun t => t.completed)
  | .all => todos

/-- One invocation of a public mutating operation of the Entity
Collection Store, with the ambient clock and id-generator outputs made
explicit. -/
inductive Op where
  | addOp (title newId : String) (now : Int)
  | addManyOp (titles : List String) (ids : List String) (now : Int)
  | updateOp (id title : String) (now : Int)
  | toggleOp (id : String) (now : Int)
  | toggleAllOp (b : Bool) (now : Int)
  | deleteOp (id : String)
  | clearCompletedOp
  | setTodosOp (newTodos : List Todo)
  | clearAllOp
deriving DecidableEq, Repr

/-- Apply one operation to the store state, discarding the returned
value. -/
def applyOp (s : StoreState) : Op → StoreState
  | .addOp title newId now => (addTodo s title newId now).2
  | .addManyOp titles ids now => (addMultipleTodos s titles ids now).2
  | .updateOp id title now => (updateTodo s id title now).2
  | .toggleOp id now => (toggleTodo s id now).2
  | .toggleAllOp b now => toggleAllTodos s b now
  | .deleteOp id => (deleteTodo s id).2
  | .clearCompletedOp => (clearCompleted s).2
  | .setTodosOp newTodos => setTodos s newTodos
  | .clearAllOp => clearAllTodos s

/-- Run a sequence of operations from the empty initial state. -/
def runOps (ops : List Op) : StoreState :=
  ops.foldl applyOp initialState

/-- Whether the operation is a `setTodos` call. -/
def Op.isSetTodosOp : Op → Bool
  | .setTodosOp _ => true
  | _ => false

/-- Whether the operation is an `addMultipleTodos` call. -/
def Op.isAddManyOp : Op → Bool
  | .addManyOp _ _ _ => true
  | _ => false

/-- The per-entity title property kept by all validated operations:
non-empty and fixed by trimming. -/
def TitleClean (t : Todo) : Prop :=
  t.title ≠ "" ∧ jsTrim t.title = t.title

/-- A reachable state violating the stated title invariant: `setTodos`
installs its argument without any validation. -/
def c1BadTodo : Todo :=
  { id := "x1", title := " ", completed := false
    createdAt := JDate.valid 0, updatedAt := JDate.valid 0 }

/-- A 201-character title: `addMultipleTodos` never applies the 200-char
cap. -/
def c1LongTitle : String := String.mk (List.replicate 201 'a')

/-- A one-entity store used to witness the by-id operations. -/
def c7Store : StoreState :=
  { todos := [{ id := "a", title := "T", completed := false
                createdAt := JDate.valid 0, updatedAt := JDate.valid 0 }]
    filter := .all, loading := false, error := none }

/-! Heap-level model of the store for the snapshot claim. JavaScript
arrays hold object references; `[...todos.value]` copies the array but
not the `Todo` objects it points to. Addresses are indices into an
explicit heap. -/

/-- The live store with its entity array as a list of heap addresses. -/
structure HeapStore where
  heap : List Todo
  todoRefs : List Nat
  filter : FilterType
  loading : Bool
  error : Option String
deriving DecidableEq, Repr

/-- The record returned by `getStateSnapshot()`:
`{todos: [...todos.value], filter, loading, error}`. -/
structure SnapshotState where
  todoRefs : List Nat
  filter : FilterType
  loading : Bool
  error : Option String
deriving DecidableEq, Repr

/-- `getStateSnapshot()` from `todoStore.ts`: the spread `[...]` yields a
fresh array holding the same `Todo` references; the scalar fields are
copied by value. -/
def getStateSnapshot (s : HeapStore) : SnapshotState :=
  { todoRefs := s.todoRefs, filter := s.filter
    loading := s.loading, error := s.error }

/-- The entity list the live store observes: each address dereferenced
in the heap. -/
def liveTodos (s : HeapStore) : List (Option Todo) :=
  s.todoRefs.map (fun a => s.heap.get? a)

/-- The heap effect of the JavaScript statement
`refs[i].completed = b` — a field write through the `i`-th reference of
a given array (out-of-range or dangling accesses leave the heap
alone). -/
def writeCompletedVia (s : HeapStore) (refs : List Nat) (i : Nat)
    (b : Bool) : HeapStore :=
  match refs.get? i with
  | none => s
  | some a =>
    match s.heap.get? a with
    | none => s
    | some t => { s with heap := s.heap.set a { t with completed := b } }

/-- A concrete one-entity heap store for the snapshot counterexample. -/
def c8Store : HeapStore :=
  { heap := [{ id := "a", title := "T", completed := false
               createdAt := JDate.valid 0, updatedAt := JDate.valid 0 }]
    todoRefs := [0], filter := .all, loading := false, error := none }

/-! The settings record and `saveSettings` merge from
`src/utils/storage.ts`, and the composable layer of
`src/composables/useTodoStorage.ts`. -/

/-- The `theme` union `'light' | 'dark' | 'auto'`. -/
inductive Theme where
  | light
  | dark
  | auto
deriving DecidableEq, Repr

/-- The `language` union `'zh-CN' | 'en-US'`. -/
inductive Language where
  | zhCN
  | enUS
deriving DecidableEq, Repr

/-- The `AppSettings` record:
`{version, theme, language, autoSave, autoSaveInterval,
lastAccessTime}`. -/
structure AppSettings where
  version : String
  theme : Theme
  language : Language
  autoSave : Bool
  autoSaveInterval : Int
  lastAccessTime : String
deriving DecidableEq, Repr

/-- A `Partial<AppSettings>` update: each field optionally specified. -/
structure PartialAppSettings where
  version : Option String := none
  theme : Option Theme := none
  language : Option Language := none
  autoSave : Option Bool := none
  autoSaveInterval : Option Int := none
  lastAccessTime : Option String := none
deriving DecidableEq, Repr

/-- `DEFAULT_SETTINGS` from `storage.ts`; its `lastAccessTime` is the
module-load time, passed in explicitly. -/
def defaultSettings (initTime : String) : AppSettings :=
  { version := "1.0.0", theme := .auto, language := .zhCN
    autoSave := true, autoSaveInterval := 1000
    lastAccessTime := initTime }

/-- The merged record built by `saveSettings` in `storage.ts`:
`{...currentSettings, ...settings, lastAccessTime: new
Date().toISOString()}` — the later literal entry always wins, so
`lastAccessTime` is unconditionally the save time. -/
def mergeSettings (currentSettings : AppSettings)
    (settings : PartialAppSettings) (now : String) : AppSettings :=
  { version := settings.version.getD currentSettings.version
    theme := settings.theme.getD currentSettings.theme
    language := settings.language.getD currentSettings.language
    autoSave := settings.autoSave.getD currentSettings.autoSave
    autoSaveInterval :=
      settings.autoSaveInterval.getD currentSettings.autoSaveInterval
    lastAccessTime := now }

/-- `saveSettings(settings)` from `storage.ts`, as the record it stores:
the current stored record (or `DEFAULT_SETTINGS` when absent/unreadable)
merged with the partial update. -/
def saveSettings (stored : Option AppSettings)
    (settings : PartialAppSettings) (now initTime : String) : AppSettings :=
  mergeSettings (stored.getD (defaultSettings initTime)) settings now

/-- A stored settings record whose `lastAccessTime` differs from the
save time, for the merge counterexample. -/
def c9Settings : AppSettings :=
  { version := "1.0.0", theme := .light, language := .enUS
    autoSave := false, autoSaveInterval := 500
    lastAccessTime := "2024-01-01T00:00:00.000Z" }

/-- `completionRate` from `useTodoStorage.ts`:
`Math.round((completedCount / total) * 100)`, `0` when the list is
empty. `Math.round` is floor of the argument plus one half (half-up
rounding); the arithmetic is modelled exactly over `ℚ`. -/
def completionRate (todos : List Todo) : ℤ :=
  if totalCount todos = 0 then 0
  else
    ⌊(completedCount todos : ℚ) / (totalCount todos : ℚ) * 100 + 1 / 2⌋

/-! JSON trees, for `exportData` / `importData` of `useTodoStorage.ts`.
`JSON.stringify` / `JSON.parse` are modelled as the identity on these
trees; a parse failure of the input text is the `none` input below. -/

/-- A parsed JSON value. Numbers are integral (the only numbers this
code stores are timestamps and intervals). -/
inductive Json where
  | null
  | bool (b : Bool)
  | num (n : Int)
  | str (s : String)
  | arr (elems : List Json)
  | obj (fields : List (String × Json))

/-- Property lookup on a field list (first binding wins, as in a parsed
JSON object with unique keys). -/
def objGet (fields : List (String × Json)) (key : String) : Option Json :=
  (fields.find? (fun f => f.1 == key)).map Prod.snd

/-- JavaScript property access `j[key]`: `none` models `undefined`
(also for access on a non-object). -/
def jGet (j : Json) (key : String) : Option Json :=
  match j with
  | .obj fields => objGet fields key
  | _ => none

/-- JavaScript truthiness of a possibly-absent value. -/
def jsTruthy : Option Json → Bool
  | none => false
  | some .null => false
  | some (.bool b) => b
  | some (.num n) => n != 0
  | some (.str s) => s != ""
  | some (.arr _) => true
  | some (.obj _) => true

/-- The per-element validation of `importData`:
`!todo.id || typeof todo.title !== 'string' ||
typeof todo.completed !== 'boolean'` throws, so an element passes iff
its `id` is truthy, its `title` a string and its `completed` a
boolean. -/
def elemOk (e : Json) : Bool :=
  jsTruthy (jGet e "id") &&
  (match jGet e "title" with
   | some (.str _) => true
   | _ => false) &&
  (match jGet e "completed" with
   | some (.bool _) => true
   | _ => false)

/-- `new Date(x)` on a JSON value: `null` and booleans coerce to the
numbers `0`/`1`, a number is a timestamp, and the remaining cases give
Invalid Date (string date text is represented by `Json.num` in this
model, see the header, so a `Json.str` here is non-date text). -/
def jsNewDate : Option Json → JDate
  | none => .invalid
  | some .null => .valid 0
  | some (.bool b) => .valid (if b then 1 else 0)
  | some (.num n) => .valid n
  | some (.str _) => .invalid
  | some (.arr _) => .invalid
  | some (.obj _) => .invalid

/-- The `id` of an imported element as the typed `Todo` stores it. The
runtime keeps the raw value; the typed embedding renders a truthy
non-string id as text (unobservable for the claims, whose imported ids
are strings). -/
def asId : Option Json → String
  | some (.str s) => s
  | some (.num n) => toString n
  | some (.bool b) => toString b
  | _ => ""

/-- A string-typed field of an imported element. -/
def asStr : Option Json → String
  | some (.str s) => s
  | _ => ""

/-- A boolean-typed field of an imported element. -/
def asBool : Option Json → Bool
  | some (.bool b) => b
  | _ => false

/-- The `Todo` stored for a validated element of `data.todos`: the
validated fields as given, with `createdAt`/`updatedAt` reparsed through
the `Date` constructor. -/
def elemToTodo (e : Json) : Todo :=
  { id := asId (jGet e "id")
    title := asStr (jGet e "title")
    completed := asBool (jGet e "completed")
    createdAt := jsNewDate (jGet e "createdAt")
    updatedAt := jsNewDate (jGet e "updatedAt") }

/-- The live state of the `useTodoStorage` composable: the values of its
three bindings (todos, filter, settings). -/
structure ComposableState where
  todos : List Todo
  filter : FilterType
  settings : AppSettings
deriving DecidableEq, Repr

/-- Serialization of a `FilterType`. -/
def filterToStr : FilterType → String
  | .all => "all"
  | .active => "active"
  | .completed => "completed"

/-- The filter guard of `importData`:
`data.filter && ['all','active','completed'].includes(data.filter)`
passes exactly for these three strings. -/
def decodeFilter : Option Json → Option FilterType
  | some (.str "all") => some .all
  | some (.str "active") => some .active
  | some (.str "completed") => some .completed
  | _ => none

/-- Serialization of a `Theme`. -/
def themeToStr : Theme → String
  | .light => "light"
  | .dark => "dark"
  | .auto => "auto"

/-- Deserialization of a `Theme`. -/
def decodeTheme : Option Json → Option Theme
  | some (.str "light") => some .light
  | some (.str "dark") => some .dark
  | some (.str "auto") => some .auto
  | _ => none

/-- Serialization of a `Language`. -/
def langToStr : Language → String
  | .zhCN => "zh-CN"
  | .enUS => "en-US"

/-- Deserialization of a `Language`. -/
def decodeLang : Option Json → Option Language
  | some (.str "zh-CN") => some .zhCN
  | some (.str "en-US") => some .enUS
  | _ => none

/-- `JSON.stringify` on a `Date`: a valid date serializes through
`toJSON` (its timestamp in this model), Invalid Date serializes to
`null`. -/
def dateToJson : JDate → Json
  | .valid ms => .num ms
  | .invalid => .null

/-- Serialization of one `Todo`, as `JSON.stringify` renders it. -/
def todoToJson (t : Todo) : Json :=
  .obj [("id", .str t.id), ("title", .str t.title),
        ("completed", .bool t.completed),
        ("createdAt", dateToJson t.createdAt),
        ("updatedAt", dateToJson t.updatedAt)]

/-- Serialization of the settings record. -/
def settingsToJson (st : AppSettings) : Json :=
  .obj [("version", .str st.version),
        ("theme", .str (themeToStr st.theme)),
        ("language", .str (langToStr st.language)),
        ("autoSave", .bool st.autoSave),
        ("autoSaveInterval", .num st.autoSaveInterval),
        ("lastAccessTime", .str st.lastAccessTime)]

/-- `settings.update(data.settings)` in `importData`: the guard
`data.settings && typeof data.settings === 'object'` admits objects
(and arrays, whose index keys touch no named field), then
`useLocalStorageObject.update` spreads the update over the current
record. The typed embedding keeps the current value of a field whose
update value has the wrong type (the runtime would store the raw value;
no claim observes that case). -/
def applySettingsJson (cur : AppSettings) : Option Json → AppSettings
  | some (.obj fs) =>
    { version :=
        match objGet fs "version" with
        | some (.str s) => s
        | _ => cur.version
      theme := (decodeTheme (objGet fs "theme")).getD cur.theme
      language := (decodeLang (objGet fs "language")).getD cur.language
      autoSave :=
        match objGet fs "autoSave" with
        | some (.bool b) => b
        | _ => cur.autoSave
      autoSaveInterval :=
        match objGet fs "autoSaveInterval" with
        | some (.num n) => n
        | _ => cur.autoSaveInterval
      lastAccessTime :=
        match objGet fs "lastAccessTime" with
        | some (.str s) => s
        | _ => cur.lastAccessTime }
  | _ => cur

/-- `exportData()` from `useTodoStorage.ts`: the JSON tree of
`{todos, filter, settings, exportTime, version: "1.0.0"}`. -/
def exportJson (s : ComposableState) (exportTime : String) : Json :=
  .obj [("todos", .arr (s.todos.map todoToJson)),
        ("filter", .str (filterToStr s.filter)),
        ("settings", settingsToJson s.settings),
        ("exportTime", .str exportTime),
        ("version", .str "1.0.0")]

/-- `importData(jsonData)` from `useTodoStorage.ts`. Input `none` is a
text that fails `JSON.parse`. The validation loop throws — caught as a
`false` return with no live mutation — unless `data.todos` is an array
whose every element passes `elemOk`; on success the todos are installed
(dates reparsed), the filter only if it decodes, and the settings merged
over the current record. -/
def importData (s : ComposableState) (input : Option Json) :
    Bool × ComposableState :=
  match input with
  | none => (false, s)
  | some data =>
    match jGet data "todos" with
    | some (.arr l) =>
      if l.all elemOk then
        (true,
          { todos := l.map elemToTodo
            filter := (decodeFilter (jGet data "filter")).getD s.filter
            settings := applySettingsJson s.settings (jGet data "settings") })
      else (false, s)
    | _ => (false, s)

/-- A well-formed import blob with one valid element, for the import
witness. -/
def c2GoodJson : Json :=
  .obj [("todos", .arr
    [ .obj [("id", .str "a"), ("title", .str "T"),
            ("completed", .bool false), ("createdAt", .num 0),
            ("updatedAt", .num 0)] ])]

/-- An import blob with no `todos` field (Scenario F), for the import
witness. -/
def c2BadJson : Json :=
  .obj [("filter", .str "all")]

/-- A concrete composable state for the import/export witnesses. -/
def c2State : ComposableState :=
  { todos := [], filter := .all, settings := c9Settings }

/-- A concrete non-empty composable state for the round-trip witness. -/
def c4State : ComposableState :=
  { todos := [{ id := "a", title := "T", completed := false
                createdAt := JDate.valid 3, updatedAt := JDate.valid 4 }]
    filter := .active, settings := c9Settings }

end TodoApp

namespace TodoApp

/-! Facts about the JavaScript trim model. -/

/-- Unfolding of `rtrimChars` on a cons whose tail trims to a cons. -/
theorem rtrimChars_cons_cons (a : Char) {t : List Char} {b : Char}
    {m : List Char} (h : rtrimChars t = b :: m) :
    rtrimChars (a :: t) = a :: b :: m := by
  simp [rtrimChars, h]

/-- Dropping trailing whitespace twice is the same as once. -/
theorem rtrimChars_idem (l : List Char) :
    rtrimChars (rtrimChars l) = rtrimChars l := by
  induction l with
  | nil => rfl
  | cons a t ih =>
    cases h : rtrimChars t with
    | nil =>
      cases hw : isJsWhitespace a <;>
        simp [rtrimChars, h, hw]
    | cons b m =>
      rw [h] at ih
      rw [rtrimChars_cons_cons a h, rtrimChars_cons_cons a ih]

/-- A list already free of leading whitespace keeps that property after
its trailing whitespace is dropped. -/
theorem dropWhile_rtrimChars (l : List Char)
    (h : l.dropWhile isJsWhitespace = l) :
    (rtrimChars l).dropWhile isJsWhitespace = rtrimChars l := by
  cases l with
  | nil => rfl
  | cons a t =>
    have ha : isJsWhitespace a = false := by
      by_cases hp : isJsWhitespace a
      · rw [List.dropWhile_cons_of_pos hp] at h
        have hlen : (t.dropWhile isJsWhitespace).length ≤ t.length :=
          (List.dropWhile_suffix _).length_le
        have : t.length + 1 ≤ t.length := by
          calc t.length + 1 = (a :: t).length := rfl
            _ = (t.dropWhile isJsWhitespace).length := by rw [h]
            _ ≤ t.length := hlen
        omega
      · simpa using hp
    cases hr : rtrimChars t with
    | nil => simp [rtrimChars, hr, ha, List.dropWhile_cons]
    | cons b m => simp [rtrimChars, hr, ha, List.dropWhile_cons]

/-- `trimChars` is idempotent. -/
theorem trimChars_idem (l : List Char) :
    trimChars (trimChars l) = trimChars l := by
  unfold trimChars
  rw [dropWhile_rtrimChars (l.dropWhile isJsWhitespace)
    (List.dropWhile_idempotent isJsWhitespace l)]
  exact rtrimChars_idem _

/-- `jsTrim` is idempotent, matching `s.trim().trim() === s.trim()`. -/
theorem jsTrim_idem (s : String) : jsTrim (jsTrim s) = jsTrim s := by
  show String.mk (trimChars (trimChars s.data)) = String.mk (trimChars s.data)
  rw [trimChars_idem]

/-- A string of positive length is not the empty string. -/
theorem ne_empty_of_length_pos {s : String} (h : s.length ≠ 0) : s ≠ "" := by
  intro hs
  rw [hs] at h
  exact h rfl

/-! Helper lemmas about the list surgeries used by the operations. -/

/-- Every element of `setFirstBy p f l` is an element of `l` or the image
of one under `f`. -/
theorem mem_setFirstBy {p : Todo → Bool} {f : Todo → Todo} :
    ∀ {l : List Todo} {x : Todo}, x ∈ setFirstBy p f l →
      (x ∈ l ∨ ∃ y ∈ l, x = f y) := by
  intro l
  induction l with
  | nil => intro x hx; simp [setFirstBy] at hx
  | cons a t ih =>
    intro x hx
    unfold setFirstBy at hx
    by_cases hp : p a
    · rw [if_pos hp] at hx
      rcases List.mem_cons.mp hx with hx | hx
      · exact Or.inr ⟨a, by simp, hx⟩
      · exact Or.inl (List.mem_cons_of_mem _ hx)
    · rw [if_neg hp] at hx
      rcases List.mem_cons.mp hx with hx | hx
      · exact Or.inl (by simp [hx])
      · rcases ih hx with h | ⟨y, hy, hxy⟩
        · exact Or.inl (List.mem_cons_of_mem _ h)
        · exact Or.inr ⟨y, List.mem_cons_of_mem _ hy, hxy⟩

/-- Every element of a `zipWith` is the image of elements of the two
lists. -/
theorem of_mem_zipWith {α β γ : Type} {f : α → β → γ} :
    ∀ {as : List α} {bs : List β} {x : γ}, x ∈ List.zipWith f as bs →
      ∃ a ∈ as, ∃ b ∈ bs, x = f a b := by
  intro as
  induction as with
  | nil => intro bs x hx; simp at hx
  | cons a as ih =>
    intro bs x hx
    cases bs with
    | nil => simp at hx
    | cons b bs =>
      simp only [List.zipWith_cons_cons, List.mem_cons] at hx
      rcases hx with hx | hx
      · exact ⟨a, by simp, b, by simp, hx⟩
      · rcases ih hx with ⟨a', ha', b', hb', hx'⟩
        exact ⟨a', List.mem_cons_of_mem _ ha', b',
          List.mem_cons_of_mem _ hb', hx'⟩

/-- `eraseIdx` only removes elements. -/
theorem mem_of_mem_eraseIdx {l : List Todo} {i : Nat} {x : Todo}
    (h : x ∈ l.eraseIdx i) : x ∈ l :=
  List.eraseIdx_subset l i h

/-! The title invariant over reachable states. -/

/-- A freshly validated title is clean. -/
theorem titleClean_of_trim {raw : String} (h : (jsTrim raw).length ≠ 0)
    {t : Todo} (ht : t.title = jsTrim raw) : TitleClean t := by
  constructor
  · rw [ht]; exact ne_empty_of_length_pos h
  · rw [ht]; exact jsTrim_idem raw

/-- Invariant transfer along `foldl applyOp`. -/
theorem runOps_inv (P : StoreState → Prop) (cond : Op → Prop)
    (hstep : ∀ s op, cond op → P s → P (applyOp s op)) :
    ∀ (ops : List Op) (s : StoreState), P s → (∀ op ∈ ops, cond op) →
      P (ops.foldl applyOp s) := by
  intro ops
  induction ops with
  | nil => intro s hs _; exact hs
  | cons op rest ih =>
    intro s hs hc
    exact ih (applyOp s op)
      (hstep s op (hc op (by simp)) hs)
      (fun o ho => hc o (List.mem_cons_of_mem _ ho))

/-- Any operation other than `setTodos` preserves cleanliness of every
stored title. -/
theorem applyOp_preserves_titleClean (s : StoreState) (op : Op)
    (hop : op.isSetTodosOp = false)
    (h : ∀ t ∈ s.todos, TitleClean t) :
    ∀ t ∈ (applyOp s op).todos, TitleClean t := by
  cases op with
  | addOp title newId now =>
    intro t ht
    simp only [applyOp, addTodo] at ht
    by_cases h0 : (jsTrim title).length = 0
    · rw [if_pos h0] at ht; exact h t ht
    · rw [if_neg h0] at ht
      by_cases h2 : (jsTrim title).length > 200
      · rw [if_pos h2] at ht; exact h t ht
      · rw [if_neg h2] at ht
        simp only [List.mem_append, List.mem_singleton] at ht
        rcases ht with ht | ht
        · exact h t ht
        · exact titleClean_of_trim h0 (by rw [ht])
  | addManyOp titles ids now =>
    intro t ht
    simp only [applyOp, addMultipleTodos] at ht
    by_cases h0 :
        (titles.filter (fun x => (jsTrim x).length > 0)).length = 0
    · rw [if_pos h0] at ht; exact h t ht
    · rw [if_neg h0] at ht
      simp only [List.mem_append] at ht
      rcases ht with ht | ht
      · exact h t ht
      · rcases of_mem_zipWith ht with ⟨raw, hraw, i, _, hti⟩
        have hpos : (jsTrim raw).length > 0 := by
          have := (List.mem_filter.mp hraw).2
          simpa using this
        exact titleClean_of_trim hpos.ne' (by rw [hti])
  | updateOp id title now =>
    intro t ht
    simp only [applyOp, updateTodo] at ht
    by_cases h0 : (jsTrim title).length = 0
    · rw [if_pos h0] at ht; exact h t ht
    · rw [if_neg h0] at ht
      by_cases h2 : (jsTrim title).length > 200
      · rw [if_pos h2] at ht; exact h t ht
      · rw [if_neg h2] at ht
        cases hf : s.todos.find? (fun x => x.id == id) with
        | none => rw [hf] at ht; exact h t ht
        | some u =>
          rw [hf] at ht
          simp only at ht
          rcases mem_setFirstBy ht with hm | ⟨y, hy, hxy⟩
          · exact h t hm
          · exact titleClean_of_trim h0 (by rw [hxy])
  | toggleOp id now =>
    intro t ht
    simp only [applyOp, toggleTodo] at ht
    cases hf : s.todos.find? (fun x => x.id == id) with
    | none => rw [hf] at ht; exact h t ht
    | some u =>
      rw [hf] at ht
      simp only at ht
      rcases mem_setFirstBy ht with hm | ⟨y, hy, hxy⟩
      · exact h t hm
      · have := h y hy
        rw [hxy]
        exact this
  | toggleAllOp b now =>
    intro t ht
    simp only [applyOp, toggleAllTodos, List.mem_map] at ht
    rcases ht with ⟨u, hu, htu⟩
    have := h u hu
    by_cases hb : u.completed != b
    · rw [if_pos hb] at htu; rw [← htu]; exact this
    · rw [if_neg hb] at htu; rw [← htu]; exact this
  | deleteOp id =>
    intro t ht
    simp only [applyOp, deleteTodo] at ht
    cases hf : s.todos.findIdx? (fun x => x.id == id) with
    | none => rw [hf] at ht; exact h t ht
    | some i =>
      rw [hf] at ht
      exact h t (mem_of_mem_eraseIdx ht)
  | clearCompletedOp =>
    intro t ht
    simp only [applyOp, clearCompleted] at ht
    exact h t (List.mem_of_mem_filter ht)
  | setTodosOp newTodos => simp [Op.isSetTodosOp] at hop
  | clearAllOp =>
    intro t ht
    simp [applyOp, clearAllTodos] at ht

/-- Any operation other than `setTodos` and `addMultipleTodos` keeps
every stored title within 200 characters. -/
theorem applyOp_preserves_titleLen (s : StoreState) (op : Op)
    (hop : op.isSetTodosOp = false ∧ op.isAddManyOp = false)
    (h : ∀ t ∈ s.todos, t.title.length ≤ 200) :
    ∀ t ∈ (applyOp s op).todos, t.title.length ≤ 200 := by
  cases op with
  | addOp title newId now =>
    intro t ht
    simp only [applyOp, addTodo] at ht
    by_cases h0 : (jsTrim title).length = 0
    · rw [if_pos h0] at ht; exact h t ht
    · rw [if_neg h0] at ht
      by_cases h2 : (jsTrim title).length > 200
      · rw [if_pos h2] at ht; exact h t ht
      · rw [if_neg h2] at ht
        simp only [List.mem_append, List.mem_singleton] at ht
        rcases ht with ht | ht
        · exact h t ht
        · rw [ht]
          exact Nat.le_of_not_lt h2
  | addManyOp titles ids now => simp [Op.isAddManyOp] at hop
  | updateOp id title now =>
    intro t ht
    simp only [applyOp, updateTodo] at ht
    by_cases h0 : (jsTrim title).length = 0
    · rw [if_pos h0] at ht; exact h t ht
    · rw [if_neg h0] at ht
      by_cases h2 : (jsTrim title).length > 200
      · rw [if_pos h2] at ht; exact h t ht
      · rw [if_neg h2] at ht
        cases hf : s.todos.find? (fun x => x.id == id) with
        | none => rw [hf] at ht; exact h t ht
        | some u =>
          rw [hf] at ht
          simp only at ht
          rcases mem_setFirstBy ht with hm | ⟨y, hy, hxy⟩
          · exact h t hm
          · rw [hxy]; simpa using Nat.le_of_not_lt h2
  | toggleOp id now =>
    intro t ht
    simp only [applyOp, toggleTodo] at ht
    cases hf : s.todos.find? (fun x => x.id == id) with
    | none => rw [hf] at ht; exact h t ht
    | some u =>
      rw [hf] at ht
      simp only at ht
      rcases mem_setFirstBy ht with hm | ⟨y, hy, hxy⟩
      · exact h t hm
      · rw [hxy]; exact h y hy
  | toggleAllOp b now =>
    intro t ht
    simp only [applyOp, toggleAllTodos, List.mem_map] at ht
    rcases ht with ⟨u, hu, htu⟩
    by_cases hb : u.completed != b
    · rw [if_pos hb] at htu; rw [← htu]; exact h u hu
    · rw [if_neg hb] at htu; rw [← htu]; exact h u hu
  | deleteOp id =>
    intro t ht
    simp only [applyOp, deleteTodo] at ht
    cases hf : s.todos.findIdx? (fun x => x.id == id) with
    | none => rw [hf] at ht; exact h t ht
    | some i =>
      rw [hf] at ht
      exact h t (mem_of_mem_eraseIdx ht)
  | clearCompletedOp =>
    intro t ht
    simp only [applyOp, clearCompleted] at ht
    exact h t (List.mem_of_mem_filter ht)
  | setTodosOp newTodos => simp [Op.isSetTodosOp] at hop
  | clearAllOp =>
    intro t ht
    simp [applyOp, clearAllTodos] at ht

set_option maxRecDepth 8000 in
/-- C1 (counterexample): the claimed invariant — every stored title
non-empty, trimmed, and at most 200 characters in every state reachable
from the empty store by the public operations — is false: the one-step
sequence `setTodos [⟨"x1", " ", …⟩]` reaches a state whose only title is
the untrimmed-whitespace string `" "`, and the one-step sequence
`addMultipleTodos ["a"*201]` reaches a state whose only title has 201
characters. -/
theorem reachable_titles_counterexample :
    (¬ ∀ t ∈ (runOps [Op.setTodosOp [c1BadTodo]]).todos,
        t.title ≠ "" ∧ jsTrim t.title = t.title ∧ t.title.length ≤ 200)
    ∧ (¬ ∀ t ∈ (runOps [Op.addManyOp [c1LongTitle] ["i1"] 0]).todos,
        t.title ≠ "" ∧ jsTrim t.title = t.title ∧ t.title.length ≤ 200) := by
  constructor <;> decide

/-- C1 (amended): in every state reachable from the empty initial state
by the public operations other than `setTodos`, every stored title is
non-empty and equal to its own trimmed form; if `addMultipleTodos` is
also excluded, every stored title moreover has at most 200 characters.
(`setTodos` installs arbitrary entities unvalidated, and
`addMultipleTodos` checks non-emptiness but not the length cap.) -/
theorem reachable_titles_clean (ops : List Op) :
    ((∀ op ∈ ops, op.isSetTodosOp = false) →
      ∀ t ∈ (runOps ops).todos, t.title ≠ "" ∧ jsTrim t.title = t.title)
    ∧ ((∀ op ∈ ops, op.isSetTodosOp = false ∧ op.isAddManyOp = false) →
      ∀ t ∈ (runOps ops).todos, t.title.length ≤ 200) := by
  constructor
  · intro hc
    exact runOps_inv (fun s => ∀ t ∈ s.todos, TitleClean t)
      (fun op => op.isSetTodosOp = false)
      applyOp_preserves_titleClean ops initialState
      (by intro t ht; simp [initialState] at ht) hc
  · intro hc
    exact runOps_inv (fun s => ∀ t ∈ s.todos, t.title.length ≤ 200)
      (fun op => op.isSetTodosOp = false ∧ op.isAddManyOp = false)
      applyOp_preserves_titleLen ops initialState
      (by intro t ht; simp [initialState] at ht) hc

/-- C1 (amended, witness): a concrete three-step run through `addTodo`,
`addMultipleTodos` and `toggleTodo` whose resulting titles are all
non-empty and trimmed. -/
theorem reachable_titles_clean_witness :
    ∀ t ∈ (runOps [Op.addOp "  hi  " "i1" 0,
        Op.addManyOp ["  a  ", " "] ["i2"] 1,
        Op.toggleOp "i1" 2]).todos,
      t.title ≠ "" ∧ jsTrim t.title = t.title :=
  (reachable_titles_clean [Op.addOp "  hi  " "i1" 0,
      Op.addManyOp ["  a  ", " "] ["i2"] 1,
      Op.toggleOp "i1" 2]).1 (by decide)

/-- First-match characterization of `setFirstBy`: when `find?` locates a
first satisfying element, `setFirstBy` rewrites exactly that position. -/
theorem setFirstBy_of_find? {p : Todo → Bool} {f : Todo → Todo} :
    ∀ {l : List Todo} {u : Todo}, l.find? p = some u →
      ∃ i, ∃ (hi : i < l.length),
        l.get ⟨i, hi⟩ = u ∧ p u = true ∧
        setFirstBy p f l = l.set i (f u) := by
  intro l
  induction l with
  | nil => intro u hu; simp at hu
  | cons a t ih =>
    intro u hu
    by_cases hp : p a
    · rw [List.find?_cons_of_pos _ hp] at hu
      injection hu with hu
      subst hu
      exact ⟨0, by simp, rfl, hp, by simp [setFirstBy, hp]⟩
    · rw [List.find?_cons_of_neg _ hp] at hu
      rcases ih hu with ⟨i, hi, hget, hpu, hset⟩
      refine ⟨i + 1, by simpa using Nat.succ_lt_succ hi, by simpa using hget,
        hpu, ?_⟩
      simp [setFirstBy, hp, List.set_cons_succ, hset]

/-- C5: the derived counts split the total. -/
theorem counts_total_eq_completed_add_active (todos : List Todo) :
    totalCount todos = completedCount todos + activeCount todos := by
  induction todos with
  | nil => rfl
  | cons a t ih =>
    cases h : a.completed <;>
      simp [totalCount, completedCount, activeCount, List.filter_cons, h] at ih ⊢ <;>
      omega

/-- C3: `addTodo` trims the title; an empty trimmed title fails with the
empty-title error and leaves the collection unchanged; a trimmed title
longer than 200 fails with the title-too-long error and leaves the
collection unchanged; otherwise exactly one new entity with the trimmed
title, `completed = false` and `createdAt = updatedAt = now` is appended
and returned, all pre-existing entities unchanged. -/
theorem addTodo_spec (s : StoreState) (title newId : String) (now : Int) :
    ((jsTrim title).length = 0 →
      (addTodo s title newId now).1 = Except.error emptyTitleMsg ∧
      (addTodo s title newId now).2.todos = s.todos ∧
      (addTodo s title newId now).2.error = some emptyTitleMsg)
    ∧ (0 < (jsTrim title).length → 200 < (jsTrim title).length →
      (addTodo s title newId now).1 = Except.error tooLongMsg ∧
      (addTodo s title newId now).2.todos = s.todos ∧
      (addTodo s title newId now).2.error = some tooLongMsg)
    ∧ (0 < (jsTrim title).length → (jsTrim title).length ≤ 200 →
      (addTodo s title newId now).1 = Except.ok
        { id := newId, title := jsTrim title, completed := false
          createdAt := JDate.valid now, updatedAt := JDate.valid now } ∧
      (addTodo s title newId now).2.todos = s.todos ++
        [{ id := newId, title := jsTrim title, completed := false
           createdAt := JDate.valid now, updatedAt := JDate.valid now }]) := by
  refine ⟨?_, ?_, ?_⟩
  · intro h0
    simp [addTodo, h0]
  · intro hpos hlong
    have h0 : ¬ (jsTrim title).length = 0 := by omega
    simp [addTodo, h0, hlong]
  · intro hpos hle
    have h0 : ¬ (jsTrim title).length = 0 := by omega
    have h2 : ¬ (jsTrim title).length > 200 := by omega
    simp [addTodo, h0, h2]

/-- C3 (witness): `addTodo` on `"  Buy milk  "` appends the trimmed
entity and returns it. -/
theorem addTodo_spec_witness :
    (addTodo initialState "  Buy milk  " "id1" 5).1 = Except.ok
      { id := "id1", title := jsTrim "  Buy milk  ", completed := false
        createdAt := JDate.valid 5, updatedAt := JDate.valid 5 } ∧
    (addTodo initialState "  Buy milk  " "id1" 5).2.todos =
      initialState.todos ++
      [{ id := "id1", title := jsTrim "  Buy milk  ", completed := false
         createdAt := JDate.valid 5, updatedAt := JDate.valid 5 }] :=
  (addTodo_spec initialState "  Buy milk  " "id1" 5).2.2
    (by decide) (by decide)

/-- C7: with an id matching no stored entity, `toggleTodo`, `deleteTodo`
and `updateTodo` (with a valid title) return `false`, set the blunt
error and leave the whole state otherwise unchanged; with the id
present, `toggleTodo` returns `true`, clears the error and negates the
`completed` flag of the first matching entity while bumping its
`updatedAt`. -/
theorem byId_ops_spec (s : StoreState) (id title : String) (now : Int) :
    ((∀ t ∈ s.todos, t.id ≠ id) →
      toggleTodo s id now =
        (false, { s with error := some (notFoundMsg id) }) ∧
      deleteTodo s id = (false, { s with error := some (notFoundMsg id) }) ∧
      (0 < (jsTrim title).length → (jsTrim title).length ≤ 200 →
        updateTodo s id title now =
          (false, { s with error := some (notFoundMsg id) })))
    ∧ ((∃ t ∈ s.todos, t.id = id) →
      (toggleTodo s id now).1 = true ∧
      (toggleTodo s id now).2.error = none ∧
      ∃ i, ∃ (hi : i < s.todos.length),
        (s.todos.get ⟨i, hi⟩).id = id ∧
        (toggleTodo s id now).2.todos =
          s.todos.set i
            { s.todos.get ⟨i, hi⟩ with
              completed := !(s.todos.get ⟨i, hi⟩).completed
              updatedAt := JDate.valid now }) := by
  constructor
  · intro habs
    have hfind : s.todos.find? (fun t => t.id == id) = none := by
      rw [List.find?_eq_none]
      intro t ht
      simpa using habs t ht
    have hidx : s.todos.findIdx? (fun t => t.id == id) = none := by
      rw [List.findIdx?_eq_none_iff]
      intro t ht
      simpa using habs t ht
    refine ⟨?_, ?_, ?_⟩
    · simp [toggleTodo, hfind]
    · simp [deleteTodo, hidx]
    · intro hpos hle
      have h0 : ¬ (jsTrim title).length = 0 := by omega
      have h2 : ¬ (jsTrim title).length > 200 := by omega
      simp [updateTodo, h0, h2, hfind]
  · intro hpres
    have hfind : ∃ u, s.todos.find? (fun t => t.id == id) = some u := by
      rcases hpres with ⟨t, ht, hid⟩
      have : (s.todos.find? (fun t => t.id == id)).isSome := by
        rw [List.find?_isSome]
        exact ⟨t, ht, by simp [hid]⟩
      exact Option.isSome_iff_exists.mp this
    rcases hfind with ⟨u, hu⟩
    rcases setFirstBy_of_find?
        (f := fun t => { t with completed := !t.completed,
                                updatedAt := JDate.valid now }) hu with
      ⟨i, hi, hget, hpu, hset⟩
    refine ⟨by simp [toggleTodo, hu], by simp [toggleTodo, hu], i, hi, ?_, ?_⟩
    · rw [hget]; simpa using hpu
    · simp only [toggleTodo, hu]
      rw [hset, hget]

/-- C7 (witness): `toggleTodo "missing"` fails and sets the error on a
concrete store; `toggleTodo "a"` succeeds there and clears the error. -/
theorem byId_ops_spec_witness :
    toggleTodo c7Store "missing" 3 =
      (false, { c7Store with error := some (notFoundMsg "missing") }) ∧
    (toggleTodo c7Store "a" 3).1 = true ∧
    (toggleTodo c7Store "a" 3).2.error = none := by
  refine ⟨((byId_ops_spec c7Store "missing" "ok" 3).1 (by decide)).1, ?_⟩
  have h := (byId_ops_spec c7Store "a" "ok" 3).2
    (by decide : ∃ t ∈ c7Store.todos, t.id = "a")
  exact ⟨h.1, h.2.1⟩

/-- C10 (implicit): every successful mutating operation leaves the blunt
error field `null` — `addTodo` returning an entity, `toggleTodo` /
`updateTodo` / `deleteTodo` returning `true`, `setFilter`,
`toggleAllTodos`, `clearCompleted`, `setTodos`, `clearAllTodos`
unconditionally, and `addMultipleTodos` returning a non-empty list. -/
theorem success_clears_error (s : StoreState) :
    (∀ title newId now t, (addTodo s title newId now).1 = Except.ok t →
      (addTodo s title newId now).2.error = none)
    ∧ (∀ id now, (toggleTodo s id now).1 = true →
      (toggleTodo s id now).2.error = none)
    ∧ (∀ id title now, (updateTodo s id title now).1 = true →
      (updateTodo s id title now).2.error = none)
    ∧ (∀ id, (deleteTodo s id).1 = true →
      (deleteTodo s id).2.error = none)
    ∧ (∀ f, (setFilter s f).error = none)
    ∧ (∀ b now, (toggleAllTodos s b now).error = none)
    ∧ ((clearCompleted s).2.error = none)
    ∧ (∀ newTodos, (setTodos s newTodos).error = none)
    ∧ ((clearAllTodos s).error = none)
    ∧ (∀ titles ids now, (addMultipleTodos s titles ids now).1 ≠ [] →
      (addMultipleTodos s titles ids now).2.error = none) := by
  refine ⟨?_, ?_, ?_, ?_, fun _ => rfl, fun _ _ => rfl, rfl, fun _ => rfl,
    rfl, ?_⟩
  · intro title newId now t hok
    by_cases h0 : (jsTrim title).length = 0
    · simp [addTodo, h0] at hok
    · by_cases h2 : (jsTrim title).length > 200
      · simp [addTodo, h0, h2] at hok
      · simp [addTodo, h0, h2]
  · intro id now htrue
    cases hf : s.todos.find? (fun t => t.id == id) with
    | none => simp [toggleTodo, hf] at htrue
    | some u => simp [toggleTodo, hf]
  · intro id title now htrue
    by_cases h0 : (jsTrim title).length = 0
    · simp [updateTodo, h0] at htrue
    · by_cases h2 : (jsTrim title).length > 200
      · simp [updateTodo, h0, h2] at htrue
      · cases hf : s.todos.find? (fun t => t.id == id) with
        | none => simp [updateTodo, h0, h2, hf] at htrue
        | some u => simp [updateTodo, h0, h2, hf]
  · intro id htrue
    cases hf : s.todos.findIdx? (fun t => t.id == id) with
    | none => simp [deleteTodo, hf] at htrue
    | some i => simp [deleteTodo, hf]
  · intro titles ids now hne
    by_cases hv : (titles.filter (fun t => (jsTrim t).length > 0)).length = 0
    · simp [addMultipleTodos, hv] at hne
    · simp [addMultipleTodos, hv]

/-- C10 (witness): a successful `toggleTodo` on the concrete one-entity
store leaves the error field `null`. -/
theorem success_clears_error_witness :
    (toggleTodo { c7Store with error := some "stale" } "a" 3).2.error =
      none :=
  (success_clears_error { c7Store with error := some "stale" }).2.1
    "a" 3 (by decide)

/-- C8 (counterexample): the snapshot is not structurally independent —
on a one-entity store, the field write `snapshot.todos[0].completed =
true` through the snapshot's entity array changes the live store's
entity list, because `[...todos.value]` copies the array but shares the
`Todo` objects. -/
theorem snapshot_shallow_counterexample :
    liveTodos
        (writeCompletedVia c8Store (getStateSnapshot c8Store).todoRefs
          0 true) ≠
      liveTodos c8Store := by
  decide

/-- C8 (amended): `getStateSnapshot` returns a shallow copy — the
returned array and scalar fields equal the live ones at call time, and
since the task objects are shared by reference, a field write through
the snapshot's array is exactly a write through the live array: both
make the live entity list show the updated task at the written
position. -/
theorem getStateSnapshot_shallow_spec (s : HeapStore) (i : Nat)
    (b : Bool) :
    (getStateSnapshot s).todoRefs = s.todoRefs ∧
    (getStateSnapshot s).filter = s.filter ∧
    (getStateSnapshot s).loading = s.loading ∧
    (getStateSnapshot s).error = s.error ∧
    writeCompletedVia s (getStateSnapshot s).todoRefs i b =
      writeCompletedVia s s.todoRefs i b ∧
    (∀ a t, s.todoRefs.get? i = some a → s.heap.get? a = some t →
      (liveTodos
          (writeCompletedVia s (getStateSnapshot s).todoRefs i b)).get? i =
        some (some { t with completed := b })) := by
  refine ⟨rfl, rfl, rfl, rfl, rfl, ?_⟩
  intro a t ha ht
  have hlt : a < s.heap.length := by
    rcases List.get?_eq_some.mp ht with ⟨h, _⟩
    exact h
  show ((writeCompletedVia s s.todoRefs i b).todoRefs.map
      (fun r => (writeCompletedVia s s.todoRefs i b).heap.get? r)).get? i =
    some (some { t with completed := b })
  rw [List.get?_map]
  simp only [writeCompletedVia, ha, ht]
  simp [List.get?_eq_getElem?, List.getElem?_set_eq_of_lt _ hlt]

/-- The completed entities are among all entities. -/
theorem completedCount_le_totalCount (todos : List Todo) :
    completedCount todos ≤ totalCount todos :=
  List.length_filter_le _ todos

/-- C6: `completionRate` equals half-up rounding of
`completed / total * 100` when the list is non-empty, equals `0` on the
empty list, and always lies within `[0, 100]`. -/
theorem completionRate_spec (todos : List Todo) :
    (totalCount todos = 0 → completionRate todos = 0) ∧
    (totalCount todos ≠ 0 →
      completionRate todos =
        ⌊(completedCount todos : ℚ) / (totalCount todos : ℚ) * 100
          + 1 / 2⌋) ∧
    0 ≤ completionRate todos ∧ completionRate todos ≤ 100 := by
  have hct := completedCount_le_totalCount todos
  by_cases h : totalCount todos = 0
  · refine ⟨fun _ => by simp [completionRate, h], fun hne => absurd h hne,
      ?_, ?_⟩ <;> simp [completionRate, h]
  · have htpos : 0 < (totalCount todos : ℚ) := by
      exact_mod_cast Nat.pos_of_ne_zero h
    have hcle : (completedCount todos : ℚ) ≤ (totalCount todos : ℚ) := by
      exact_mod_cast hct
    have hq0 : 0 ≤ (completedCount todos : ℚ) / (totalCount todos : ℚ) * 100 := by
      positivity
    have hq100 :
        (completedCount todos : ℚ) / (totalCount todos : ℚ) * 100 ≤ 100 := by
      rw [div_mul_eq_mul_div, div_le_iff htpos]
      nlinarith
    refine ⟨fun h0 => absurd h0 h, fun _ => by rw [completionRate, if_neg h],
      ?_, ?_⟩
    · rw [completionRate, if_neg h]
      exact Int.le_floor.mpr (by push_cast; linarith)
    · rw [completionRate, if_neg h]
      have h101 :
          ⌊(completedCount todos : ℚ) / (totalCount todos : ℚ) * 100
            + 1 / 2⌋ < (101 : ℤ) :=
        Int.floor_lt.mpr (by push_cast; linarith)
      linarith

/-- C6 (witness): the rate is `0` on the empty list and within bounds on
a concrete one-entity list, via the general law. -/
theorem completionRate_spec_witness :
    completionRate [] = 0 ∧
    0 ≤ completionRate c7Store.todos ∧
    completionRate c7Store.todos ≤ 100 :=
  ⟨(completionRate_spec []).1 rfl, (completionRate_spec c7Store.todos).2.2⟩

/-- C9 (counterexample): saving the empty partial update does not
preserve `lastAccessTime` — `saveSettings` always overwrites it with the
save time, so the claim that every unmentioned field (including
`lastAccessTime`) is preserved is false. -/
theorem saveSettings_counterexample :
    (saveSettings (some c9Settings) {} "2024-06-01T00:00:00.000Z"
        "init").lastAccessTime ≠ c9Settings.lastAccessTime := by
  decide

/-- C9 (amended): for every stored record `S` and partial update `P`,
the record stored by `saveSettings` takes `P`'s value at each of
`version`, `theme`, `language`, `autoSave` and `autoSaveInterval` when
specified and `S`'s value otherwise, while `lastAccessTime` is always
set to the save time, regardless of `S` and `P`. -/
theorem saveSettings_merge_spec (S : AppSettings) (P : PartialAppSettings)
    (now initTime : String) :
    (saveSettings (some S) P now initTime).version =
        P.version.getD S.version ∧
    (saveSettings (some S) P now initTime).theme = P.theme.getD S.theme ∧
    (saveSettings (some S) P now initTime).language =
        P.language.getD S.language ∧
    (saveSettings (some S) P now initTime).autoSave =
        P.autoSave.getD S.autoSave ∧
    (saveSettings (some S) P now initTime).autoSaveInterval =
        P.autoSaveInterval.getD S.autoSaveInterval ∧
    (saveSettings (some S) P now initTime).lastAccessTime = now :=
  ⟨rfl, rfl, rfl, rfl, rfl, rfl⟩

/-- C8 (amended, witness): the shallow-copy law applied to the concrete
one-entity store. -/
theorem getStateSnapshot_shallow_spec_witness :
    (liveTodos
        (writeCompletedVia c8Store (getStateSnapshot c8Store).todoRefs
          0 true)).get? 0 =
      some (some { id := "a", title := "T", completed := true
                   createdAt := JDate.valid 0
                   updatedAt := JDate.valid 0 }) :=
  (getStateSnapshot_shallow_spec c8Store 0 true).2.2.2.2.2
    0 { id := "a", title := "T", completed := false
        createdAt := JDate.valid 0, updatedAt := JDate.valid 0 }
    (by decide) (by decide)

/-- C2: `importData` is all-or-nothing. A failed parse, a missing or
non-array `todos` field, or any element failing the id/title/completed
validation returns `false` with the live state (todos, filter and
settings alike) completely untouched; when all conditions hold it
returns `true` and installs the imported entities with their dates
reparsed. -/
theorem importData_all_or_nothing (s : ComposableState) (j : Json)
    (l : List Json) :
    importData s none = (false, s) ∧
    (jGet j "todos" = some (.arr l) → l.all elemOk = true →
      (importData s (some j)).1 = true ∧
      (importData s (some j)).2.todos = l.map elemToTodo) ∧
    ((∀ l', jGet j "todos" = some (.arr l') → l'.all elemOk ≠ true) →
      importData s (some j) = (false, s)) := by
  refine ⟨rfl, ?_, ?_⟩
  · intro hT hok
    constructor <;> simp [importData, hT, hok]
  · intro hbad
    cases hT : jGet j "todos" with
    | none => simp [importData, hT]
    | some v =>
      cases v with
      | arr l' =>
        have hfalse : l'.all elemOk = false := by
          cases hv : l'.all elemOk with
          | false => rfl
          | true => exact absurd hv (hbad l' hT)
        simp [importData, hT, hfalse]
      | null => simp [importData, hT]
      | bool b => simp [importData, hT]
      | num n => simp [importData, hT]
      | str t => simp [importData, hT]
      | obj fs => simp [importData, hT]

/-- C2 (witness): a valid one-element blob imports successfully on a
concrete state; a blob without a `todos` field returns `false` and
leaves the state untouched. -/
theorem importData_all_or_nothing_witness :
    ((importData c2State (some c2GoodJson)).1 = true ∧
      (importData c2State (some c2GoodJson)).2.todos =
        [{ id := "a", title := "T", completed := false
           createdAt := JDate.valid 0, updatedAt := JDate.valid 0 }]) ∧
    importData c2State (some c2BadJson) = (false, c2State) := by
  constructor
  · have h := (importData_all_or_nothing c2State c2GoodJson
      [ .obj [("id", .str "a"), ("title", .str "T"),
              ("completed", .bool false), ("createdAt", .num 0),
              ("updatedAt", .num 0)] ]).2.1 rfl (by decide)
    exact ⟨h.1, by rw [h.2]; rfl⟩
  · exact (importData_all_or_nothing c2State c2BadJson []).2.2
      (fun l' h => by
        rw [show jGet c2BadJson "todos" = none from rfl] at h
        exact Option.noConfusion h)

/-- Re-serializing then re-parsing one entity with valid dates is the
identity. -/
theorem elemToTodo_todoToJson (t : Todo)
    (h1 : t.createdAt ≠ JDate.invalid) (h2 : t.updatedAt ≠ JDate.invalid) :
    elemToTodo (todoToJson t) = t := by
  obtain ⟨id, title, c, cA, uA⟩ := t
  cases cA with
  | invalid => simp at h1
  | valid m1 =>
    cases uA with
    | invalid => simp at h2
    | valid m2 => rfl

/-- Re-serializing then re-parsing an entity list with valid dates is
the identity. -/
theorem map_elemToTodo_todoToJson (l : List Todo)
    (h : ∀ t ∈ l, t.createdAt ≠ JDate.invalid ∧
      t.updatedAt ≠ JDate.invalid) :
    (l.map todoToJson).map elemToTodo = l := by
  induction l with
  | nil => rfl
  | cons a tl ih =>
    have ha := h a (by simp)
    simp only [List.map_cons, elemToTodo_todoToJson a ha.1 ha.2,
      List.cons.injEq, true_and]
    exact ih (fun t ht => h t (List.mem_cons_of_mem _ ht))

/-- A serialized filter decodes to itself. -/
theorem decodeFilter_filterToStr (f : FilterType) :
    decodeFilter (some (.str (filterToStr f))) = some f := by
  cases f <;> rfl

/-- Merging a full serialized settings record over itself restores it. -/
theorem applySettingsJson_settingsToJson (st : AppSettings) :
    applySettingsJson st (some (settingsToJson st)) = st := by
  obtain ⟨v, th, lang, sa, ai, lat⟩ := st
  cases th <;> cases lang <;> rfl

/-- C4: round-trip — importing the blob produced by exporting a state
restores that state: entities (dates surviving serialization and
reparsing), filter and settings all equal the originals. (When some
entity fails the import validation — e.g. an empty id — the import
rejects the blob and leaves the state, which is the original, in place;
otherwise every component is reinstalled equal to the original.) -/
theorem export_import_roundtrip (s : ComposableState) (exportTime : String)
    (hdates : ∀ t ∈ s.todos, t.createdAt ≠ JDate.invalid ∧
      t.updatedAt ≠ JDate.invalid) :
    (importData s (some (exportJson s exportTime))).2 = s := by
  have hT : jGet (exportJson s exportTime) "todos" =
      some (.arr (s.todos.map todoToJson)) := rfl
  have hF : jGet (exportJson s exportTime) "filter" =
      some (.str (filterToStr s.filter)) := rfl
  have hS : jGet (exportJson s exportTime) "settings" =
      some (settingsToJson s.settings) := rfl
  cases hall : (s.todos.map todoToJson).all elemOk with
  | false => simp [importData, hT, hall]
  | true =>
    simp only [importData, hT, hall, if_pos]
    have : ({ todos := (s.todos.map todoToJson).map elemToTodo
              filter := (decodeFilter
                (jGet (exportJson s exportTime) "filter")).getD s.filter
              settings := applySettingsJson s.settings
                (jGet (exportJson s exportTime) "settings") } :
        ComposableState) = s := by
      rw [hF, hS, map_elemToTodo_todoToJson s.todos hdates,
        decodeFilter_filterToStr, applySettingsJson_settingsToJson]
      rfl
    exact this

/-- C4 (witness): the round trip on a concrete one-entity state with
valid dates restores it exactly. -/
theorem export_import_roundtrip_witness :
    (importData c4State (some (exportJson c4State "2024-06-01"))).2 =
      c4State :=
  export_import_roundtrip c4State "2024-06-01" (by decide)

end TodoApp
